import Mathlib

-- Verification of the living-agents concurrency and memory-lifecycle core.
-- Python floats are modelled as exact rationals (ℚ); datetimes as rational
-- seconds since the epoch; Python dicts keyed by entity/agent id as
-- association lists with unique keys.

namespace LivingAgents

-- ===================================================================
-- Association-list helpers (model of Python dict lookup / item update)
-- ===================================================================

def alistLookup {α : Type} : List (String × α) → String → Option α
  | [], _ => none
  | (k', v) :: rest, k => if k' = k then some v else alistLookup rest k

def alistSet {α : Type} : List (String × α) → String → α → List (String × α)
  | [], _, _ => []
  | (k1, v1) :: rest, k, v =>
    if k1 = k then (k, v) :: alistSet rest k v
    else (k1, v1) :: alistSet rest k v

-- ===================================================================
-- WorkingMemory (src/memory/working.py)
-- ===================================================================

structure ChatMessage where
  role : String
  content : String
deriving Repr, DecidableEq

-- Python `text.split()`: split on whitespace, dropping empty pieces.
def pyWords (s : String) : List String :=
  (s.split Char.isWhitespace).filter (fun w => w ≠ "")

-- `int(len(text.split()) * 1.3)`, with 1.3 as the exact rational 13/10
-- (truncation of a nonnegative value = floor = Nat division).
def estimate_tokens (text : String) : Nat :=
  (pyWords text).length * 13 / 10

structure WorkingMemory where
  max_tokens : Nat
  messages : List ChatMessage
  summary : String
  token_count : Nat
deriving Repr, DecidableEq

def WorkingMemory.add_message (wm : WorkingMemory) (role content : String) :
    WorkingMemory :=
  { wm with
    messages := wm.messages ++ [⟨role, content⟩]
    token_count := wm.token_count + estimate_tokens content }

-- The prompt built from the messages selected for compression.
def compressPrompt (to_compress : List ChatMessage) : String :=
  "Summarize the following conversation excerpt briefly and concisely. " ++
  "Preserve important information, decisions, and emotional tones:\n\n" ++
  String.intercalate "\n" (to_compress.map (fun m => m.role ++ ": " ++ m.content))

-- COMPRESSION_THRESHOLD = 0.8; `token_count < max_tokens * 0.8` is modelled
-- exactly as `token_count * 5 < max_tokens * 4`.  The external summarization
-- call is a function returning `Option String` (`none` models a raised
-- exception, caught by the code).  Returns the new state and the Bool result.
def WorkingMemory.compress_if_needed (wm : WorkingMemory)
    (claude_client : String → Option String) : WorkingMemory × Bool :=
  if wm.token_count * 5 < wm.max_tokens * 4 then (wm, false)
  else if wm.messages.length < 4 then (wm, false)
  else
    let split_point := wm.messages.length / 2
    let to_compress := wm.messages.take split_point
    let remaining := wm.messages.drop split_point
    match claude_client (compressPrompt to_compress) with
    | none => (wm, false)
    | some new_summary =>
      let summary :=
        if wm.summary ≠ "" then wm.summary ++ "\n\n" ++ new_summary
        else new_summary
      ({ wm with
          summary := summary
          messages := remaining
          token_count := estimate_tokens summary +
            (remaining.map (fun m => estimate_tokens m.content)).sum }, true)

-- ===================================================================
-- EpisodicMemory (src/memory/episodic.py)
-- ===================================================================

def INTENSE_EMOTIONS : List String :=
  ["öfke", "korku", "heyecan", "şaşkınlık", "hayranlık",
   "üzüntü", "sevinç", "anger", "fear", "excitement",
   "surprise", "awe", "sadness", "joy"]

structure Episode where
  episode_id : String
  agent_id : String
  timestamp : ℚ            -- seconds since epoch
  participants : List String
  summary : String
  emotional_tone : String
  importance : ℚ
  current_importance : ℚ
  tags : List String
deriving Repr, DecidableEq

-- `max((now - ts).total_seconds() / 86400, 0)`
def days_elapsed (now ts : ℚ) : ℚ := max ((now - ts) / 86400) 0

def emotion_modifier (tone : String) : ℚ :=
  if tone ∈ INTENSE_EMOTIONS then 1/2 else 1

def decayEpisode (decay_rate now : ℚ) (e : Episode) : Episode :=
  { e with current_importance := max 0 (e.current_importance -
      decay_rate * days_elapsed now e.timestamp * emotion_modifier e.emotional_tone) }

-- decay_memories updates every episode row owned by the agent; the store is
-- modelled as the agent's episode list.
def decay_memories (decay_rate now : ℚ) (eps : List Episode) : List Episode :=
  eps.map (decayEpisode decay_rate now)

-- ===================================================================
-- MemoryStore.daily_maintenance (src/memory/store.py)
-- ===================================================================

def ARCHIVE_AGE_DAYS : ℚ := 90

def ARCHIVE_IMPORTANCE_THRESHOLD : ℚ := 1/10

-- The durable store together with the similarity-index id set.
structure EpisodicStore where
  episodes : List Episode
  index : List String
deriving Repr, DecidableEq

-- A post-decay episode is forgotten when it appears in the
-- `get_important_memories(threshold=0.0)` scan (current_importance ≥ 0)
-- and satisfies both archive conditions.
def archiveForgets (now : ℚ) (e : Episode) : Bool :=
  decide (0 ≤ e.current_importance ∧
    e.current_importance < ARCHIVE_IMPORTANCE_THRESHOLD ∧
    e.timestamp < now - ARCHIVE_AGE_DAYS * 86400)

def daily_maintenance (decay_rate now : ℚ) (st : EpisodicStore) :
    EpisodicStore :=
  let decayed := decay_memories decay_rate now st.episodes
  let forgotten := (decayed.filter (fun e => archiveForgets now e)).map
    (fun e => e.episode_id)
  { episodes := decayed.filter (fun e => ! archiveForgets now e)
    index := st.index.filter (fun i => ! forgotten.contains i) }

-- ===================================================================
-- CharacterState beliefs (src/core/character.py)
-- ===================================================================

structure Belief where
  text : String
  conviction : ℚ
deriving Repr, DecidableEq

-- evolve_belief mutates the first belief whose text matches: the delta is
-- clamped to [-0.1, 0.1], the conviction to [0, 1], and the belief is
-- removed when the new conviction drops below 0.1.  Later beliefs are
-- untouched (the Python loop returns after the first match).
def evolve_belief : List Belief → String → ℚ → List Belief
  | [], _, _ => []
  | b :: rest, belief_text, delta =>
    if b.text = belief_text then
      let clamped := max (-(1/10)) (min (1/10) delta)
      let c := max 0 (min 1 (b.conviction + clamped))
      if c < 1/10 then rest else { b with conviction := c } :: rest
    else b :: evolve_belief rest belief_text delta

-- The conviction produced by one evolve step: delta clamped to [-0.1, 0.1],
-- result clamped to [0, 1].
def clampedConviction (conviction delta : ℚ) : ℚ :=
  max 0 (min 1 (conviction + max (-(1/10)) (min (1/10) delta)))

-- ===================================================================
-- MessageBus (src/world/message_bus.py)
-- ===================================================================

structure Message where
  message_id : String
  from_id : String
  to_id : String
  message_type : String
  content : String
  timestamp : ℤ
deriving Repr, DecidableEq

structure MessageBus where
  log : List Message                      -- SQLite messages table, insert order
  queues : List (String × List Message)   -- per-entity FIFO mailboxes
deriving Repr, DecidableEq

def MessageBus.create_inbox (bus : MessageBus) (entity_id : String) :
    MessageBus :=
  if (alistLookup bus.queues entity_id).isSome then bus
  else { bus with queues := bus.queues ++ [(entity_id, [])] }

-- `_persist_message`: INSERT into the messages table.
def MessageBus.persist_message (bus : MessageBus) (m : Message) : MessageBus :=
  { bus with log := bus.log ++ [m] }

-- Enqueue into the recipient's mailbox only if one exists.
def MessageBus.deliver (bus : MessageBus) (m : Message) : MessageBus :=
  match alistLookup bus.queues m.to_id with
  | none => bus
  | some q => { bus with queues := alistSet bus.queues m.to_id (q ++ [m]) }

-- send = persist first, then attempt delivery.
def MessageBus.send (bus : MessageBus) (m : Message) : MessageBus :=
  (bus.persist_message m).deliver m

-- receive with `timeout=None`: `queue.get_nowait()` — no waiting.  Returns
-- the popped message (if any) and the new bus state; missing inbox or
-- QueueEmpty yield `none` rather than an error.
def MessageBus.receive_nowait (bus : MessageBus) (entity_id : String) :
    Option Message × MessageBus :=
  match alistLookup bus.queues entity_id with
  | none => (none, bus)
  | some [] => (none, bus)
  | some (m :: rest) =>
    (some m, { bus with queues := alistSet bus.queues entity_id rest })

-- broadcast: one fresh Message per entity holding a mailbox, skipping the
-- sender; `freshId` models uuid4 per constructed message, `now` the shared
-- construction time.
def broadcastRecipients (bus : MessageBus) (from_id : String) : List String :=
  (bus.queues.map Prod.fst).filter (fun eid => eid ≠ from_id)

def broadcastMessage (from_id content msg_type : String)
    (freshId : Nat → String) (now : ℤ) (i : Nat) (eid : String) : Message :=
  ⟨freshId i, from_id, eid, msg_type, content, now⟩

def MessageBus.broadcast (bus : MessageBus) (from_id content msg_type : String)
    (freshId : Nat → String) (now : ℤ) : MessageBus :=
  ((broadcastRecipients bus from_id).enum).foldl
    (fun b p => b.send (broadcastMessage from_id content msg_type freshId now p.1 p.2))
    bus

-- get_history: messages where the entity is sender or recipient, ordered by
-- timestamp descending, limited.
def MessageBus.get_history (bus : MessageBus) (entity_id : String)
    (limit : Nat) : List Message :=
  ((bus.log.filter (fun m => m.from_id = entity_id ∨ m.to_id = entity_id)).insertionSort
    (fun a b => b.timestamp ≤ a.timestamp)).take limit

-- ===================================================================
-- WorldRegistry (src/world/registry.py)
-- ===================================================================

def VALID_STATUSES : List String :=
  ["online", "offline", "idle", "thinking", "in_conversation", "reflecting"]

structure WorldEntity where
  entity_id : String
  entity_type : String
  name : String
  status : String
  current_conversation_with : Option String
  personality_summary : String
  expertise_summary : String
  avatar_emoji : String
  last_active : ℤ
deriving Repr, DecidableEq

-- update_status: missing entity → no-op; otherwise the status field is
-- assigned only when the token is valid, while current_conversation_with
-- and last_active are assigned unconditionally.
def update_status (reg : List (String × WorldEntity))
    (entity_id status : String) (conversation_with : Option String)
    (now : ℤ) : List (String × WorldEntity) :=
  match alistLookup reg entity_id with
  | none => reg
  | some e =>
    let e1 := if status ∈ VALID_STATUSES then { e with status := status } else e
    let e2 := { e1 with
                current_conversation_with := conversation_with
                last_active := now }
    alistSet reg entity_id e2

-- The spec invariant: partner non-null iff status is "in_conversation".
def partnerInvariant (e : WorldEntity) : Prop :=
  e.current_conversation_with.isSome ↔ e.status = "in_conversation"

-- ===================================================================
-- Orchestrator.run_conversation turn loop (src/world/orchestrator.py)
-- ===================================================================

def CONVERSATION_END_SIGNAL : String := "[VEDA]"

-- Whether `pat` occurs at the head of `l`.
def matchesAt : List Char → List Char → Bool
  | [], _ => true
  | _ :: _, [] => false
  | p :: ps, c :: cs => p = c && matchesAt ps cs

-- Whether `pat` occurs anywhere inside `l`.
def hasSublist (pat : List Char) : List Char → Bool
  | [] => pat.isEmpty
  | c :: cs => matchesAt pat (c :: cs) || hasSublist pat cs

-- Python `CONVERSATION_END_SIGNAL in response` (substring containment).
def containsEndSignal (response : String) : Bool :=
  hasSublist CONVERSATION_END_SIGNAL.toList response.toList

inductive EndReason
  | natural       -- "doğal bitiş"
  | interrupted   -- "insan müdahalesi"
  | limit         -- "limit (max_turns)"
deriving Repr, DecidableEq

-- The `for turn in range(max_turns)` loop.  `interruptSet t` is whether
-- `interrupt1.is_set() or interrupt2.is_set()` holds at the check before
-- turn `t`; `responses t` is the generation response produced in turn `t`.
-- Arguments of the recursion: current turn index, remaining range length.
-- Returns (actual_turns, interrupted flag).
def convLoop (interruptSet : Nat → Bool) (responses : Nat → String) :
    Nat → Nat → Nat × Bool
  | turn, 0 => (turn, false)
  | turn, remaining + 1 =>
    if interruptSet turn then (turn, true)
    else if containsEndSignal (responses turn) then (turn + 1, false)
    else convLoop interruptSet responses (turn + 1) remaining

-- end-reason classification after the loop: `if interrupted ... elif
-- actual_turns < max_turns ... else limit`.
def end_reason (max_turns actual_turns : Nat) (interrupted : Bool) : EndReason :=
  if interrupted then EndReason.interrupted
  else if actual_turns < max_turns then EndReason.natural
  else EndReason.limit

-- Full run: the loop from turn 0, then the recorded completion reason.
def run_conversation_outcome (interruptSet : Nat → Bool)
    (responses : Nat → String) (max_turns : Nat) : Nat × EndReason :=
  let r := convLoop interruptSet responses 0 max_turns
  (r.1, end_reason max_turns r.1 r.2)

-- ===================================================================
-- Orchestrator.handle_human_message / _interrupt_conversation
-- ===================================================================

-- The orchestrator state slice these two methods read and write:
-- the registry, the live interrupt events (present key = allocated flag,
-- value = Event.is_set()), and the key sets of `agents` and
-- `conversation_engines`.
structure OrchestratorState where
  registry : List (String × WorldEntity)
  interrupt_events : List (String × Bool)
  agents : List String
  engines : List String
deriving Repr, DecidableEq

def setFlag (evs : List (String × Bool)) (agent_id : String) :
    List (String × Bool) :=
  if (alistLookup evs agent_id).isSome then alistSet evs agent_id true else evs

def interrupt_conversation (st : OrchestratorState) (agent_id : String) :
    OrchestratorState :=
  let evs1 := setFlag st.interrupt_events agent_id
  let evs2 :=
    match alistLookup st.registry agent_id with
    | none => evs1
    | some e =>
      match e.current_conversation_with with
      | none => evs1
      | some partner_id => setFlag evs1 partner_id
  { st with interrupt_events := evs2 }

-- handle_human_message: missing agent or engine raises ValueError (modelled
-- as `Except.error`); if the target holds a live interrupt flag, the
-- conversation is interrupted; the chat call (abstracted as the supplied
-- `chatResponse`) then proceeds unconditionally in the same invocation.
def handle_human_message (st : OrchestratorState)
    (human_id target_agent_id message chatResponse : String) :
    Except String (OrchestratorState × String) :=
  if target_agent_id ∈ st.agents then
    if target_agent_id ∈ st.engines then
      let st' :=
        if (alistLookup st.interrupt_events target_agent_id).isSome then
          interrupt_conversation st target_agent_id
        else st
      Except.ok (st', chatResponse)
    else Except.error ("No conversation engine for agent " ++ target_agent_id)
  else Except.error ("Agent " ++ target_agent_id ++ " not found")

-- ===================================================================
-- Helper lemmas
-- ===================================================================

theorem alistLookup_alistSet_self {α : Type} :
    ∀ (l : List (String × α)) (k : String) (v w : α),
      alistLookup l k = some w → alistLookup (alistSet l k v) k = some v
  | [], k, v, w, h => by simp [alistLookup] at h
  | (k1, v1) :: rest, k, v, w, h => by
    by_cases hk : k1 = k
    · subst hk
      simp [alistSet, alistLookup]
    · simp only [alistLookup, if_neg hk] at h
      simp only [alistSet, if_neg hk, alistLookup]
      exact alistLookup_alistSet_self rest k v w h

theorem alistLookup_alistSet_ne {α : Type} :
    ∀ (l : List (String × α)) (k k' : String) (v : α), k ≠ k' →
      alistLookup (alistSet l k v) k' = alistLookup l k'
  | [], _, _, _, _ => by simp [alistLookup, alistSet]
  | (k1, v1) :: rest, k, k', v, h => by
    by_cases hk : k1 = k
    · subst hk
      simp only [alistSet, if_pos rfl, alistLookup]
      rw [if_neg h, if_neg h]
      exact alistLookup_alistSet_ne rest k1 k' v h
    · simp only [alistSet, if_neg hk, alistLookup]
      by_cases hk' : k1 = k'
      · rw [if_pos hk', if_pos hk']
      · rw [if_neg hk', if_neg hk']
        exact alistLookup_alistSet_ne rest k k' v h

-- Bounds of the clamped belief delta.
theorem clamp_bounds (δ : ℚ) :
    -(1/10) ≤ max (-(1/10)) (min (1/10) δ) ∧
      max (-(1/10)) (min (1/10) δ) ≤ 1/10 :=
  ⟨le_max_left _ _, max_le (by norm_num) (min_le_left _ _)⟩

-- Clamping a clamped delta changes nothing (used for the delta-clamp claims).
theorem clamp_clamp (δ : ℚ) :
    max (-(1/10)) (min (1/10) (max (-(1/10)) (min (1/10) δ))) =
      max (-(1/10)) (min (1/10) δ) := by
  obtain ⟨h1, h2⟩ := clamp_bounds δ
  rw [min_eq_right h2, max_eq_right h1]

-- ===================================================================
-- C3 — WorldRegistry.update_status
-- ===================================================================

def entC3 : WorldEntity :=
  { entity_id := "a", entity_type := "agent", name := "A",
    status := "in_conversation", current_conversation_with := some "b",
    personality_summary := "", expertise_summary := "", avatar_emoji := "",
    last_active := 0 }

/-- C3 counterexample: on an entity that is `in_conversation` with partner
`"b"`, a call with the invalid status token `"bogus"` does not leave the
entity unchanged — it clears the partner field while keeping the status
`in_conversation`, so the updated entity violates the partner-iff-status
invariant. -/
theorem C3_counterexample :
    update_status [("a", entC3)] "a" "bogus" none 7 =
      [("a", { entC3 with current_conversation_with := none, last_active := 7 })] ∧
    ({ entC3 with current_conversation_with := none, last_active := 7 }).status =
      "in_conversation" ∧
    ¬ partnerInvariant
        { entC3 with current_conversation_with := none, last_active := 7 } ∧
    ({ entC3 with current_conversation_with := none, last_active := 7 } : WorldEntity)
      ≠ entC3 := by
  refine ⟨by decide, by decide, ?_, by decide⟩
  intro h
  simp [partnerInvariant, entC3] at h

/-- C3 amended: update_status on a registered entity always overwrites the
partner field with the supplied argument (defaulting to none) and the
last-active time, and assigns the status only when the token is valid; the
partner-iff-in_conversation invariant holds for the updated entity whenever
the call is well-formed (valid token, and a partner supplied exactly when
the status is `in_conversation`). -/
theorem C3_amended_spec (reg : List (String × WorldEntity))
    (entity_id status : String) (conversation_with : Option String)
    (now : ℤ) (e : WorldEntity)
    (h : alistLookup reg entity_id = some e) :
    update_status reg entity_id status conversation_with now =
      alistSet reg entity_id
        { e with
          status := if status ∈ VALID_STATUSES then status else e.status
          current_conversation_with := conversation_with
          last_active := now } ∧
    (status ∈ VALID_STATUSES →
      (status = "in_conversation" ↔ conversation_with.isSome) →
      partnerInvariant
        { e with
          status := status
          current_conversation_with := conversation_with
          last_active := now }) := by
  constructor
  · unfold update_status
    rw [h]
    by_cases hv : status ∈ VALID_STATUSES
    · simp [hv]
    · simp [hv]
  · intro hv hw
    unfold partnerInvariant
    simpa using hw.symm

/-- C3 amended witness. -/
theorem C3_amended_spec_witness :
    update_status [("a", entC3)] "a" "idle" none 7 =
      alistSet [("a", entC3)] "a"
        { entC3 with
          status := if "idle" ∈ VALID_STATUSES then "idle" else entC3.status
          current_conversation_with := none
          last_active := 7 } := by
  exact (C3_amended_spec [("a", entC3)] "a" "idle" none 7 entC3 (by decide)).1

-- ===================================================================
-- C4 — decay formula, bounds, monotonicity
-- ===================================================================

/-- C4: one decay application maps each owned episode to the same episode
with current_importance = max(0, old − rate × days_elapsed × emotionModifier),
where days_elapsed is floored at 0 and the modifier is 0.5 for intense tones
and 1.0 otherwise; the result is never below 0, and for a nonnegative rate
and a nonnegative starting importance it never exceeds the old value.
Determinism is inherent: the update is a pure function of (rate, now, episodes). -/
theorem C4_decay_spec (decay_rate now : ℚ) (eps : List Episode)
    (hr : 0 ≤ decay_rate) :
    decay_memories decay_rate now eps = eps.map (decayEpisode decay_rate now) ∧
    ∀ e ∈ eps,
      (decayEpisode decay_rate now e).current_importance =
        max 0 (e.current_importance - decay_rate * days_elapsed now e.timestamp *
          emotion_modifier e.emotional_tone) ∧
      emotion_modifier e.emotional_tone =
        (if e.emotional_tone ∈ INTENSE_EMOTIONS then 1/2 else 1) ∧
      days_elapsed now e.timestamp = max ((now - e.timestamp) / 86400) 0 ∧
      0 ≤ (decayEpisode decay_rate now e).current_importance ∧
      (0 ≤ e.current_importance →
        (decayEpisode decay_rate now e).current_importance ≤ e.current_importance) := by
  refine ⟨rfl, ?_⟩
  intro e _
  have hdays : 0 ≤ days_elapsed now e.timestamp := le_max_right _ _
  have hmod : 0 ≤ emotion_modifier e.emotional_tone := by
    unfold emotion_modifier
    split <;> norm_num
  have hd : 0 ≤ decay_rate * days_elapsed now e.timestamp *
      emotion_modifier e.emotional_tone :=
    mul_nonneg (mul_nonneg hr hdays) hmod
  refine ⟨rfl, rfl, rfl, le_max_left _ _, ?_⟩
  intro h0
  exact max_le h0 (by linarith)

/-- C4 witness: a one-day-old neutral episode of importance 1 decays at rate
3/10 to importance 7/10, within bounds. -/
theorem C4_decay_spec_witness :
    decay_memories (3/10) 86400
        [{ episode_id := "e1", agent_id := "a", timestamp := 0,
           participants := [], summary := "s", emotional_tone := "nötr",
           importance := 1, current_importance := 1, tags := [] }] =
      [{ episode_id := "e1", agent_id := "a", timestamp := 0,
         participants := [], summary := "s", emotional_tone := "nötr",
         importance := 1, current_importance := 1, tags := [] }].map
        (decayEpisode (3/10) 86400) :=
  (C4_decay_spec (3/10) 86400 _ (by norm_num)).1

-- ===================================================================
-- C5 — decay is NOT idempotent for a fixed now
-- ===================================================================

def epC5 : Episode :=
  { episode_id := "e1", agent_id := "a", timestamp := 0, participants := [],
    summary := "s", emotional_tone := "nötr", importance := 1,
    current_importance := 1, tags := [] }

theorem days_elapsed_one_day : days_elapsed 86400 0 = 1 := by
  unfold days_elapsed
  rw [show ((86400 : ℚ) - 0) / 86400 = 1 by norm_num,
    max_eq_left (by norm_num)]

theorem emotion_modifier_neutral : emotion_modifier "nötr" = 1 := by
  unfold emotion_modifier
  rw [if_neg (by decide)]

-- Field lemmas for decayEpisode: only current_importance changes.
theorem decayEpisode_ci (r now : ℚ) (e : Episode) :
    (decayEpisode r now e).current_importance =
      max 0 (e.current_importance -
        r * days_elapsed now e.timestamp * emotion_modifier e.emotional_tone) :=
  rfl

theorem decayEpisode_timestamp (r now : ℚ) (e : Episode) :
    (decayEpisode r now e).timestamp = e.timestamp := rfl

theorem decayEpisode_tone (r now : ℚ) (e : Episode) :
    (decayEpisode r now e).emotional_tone = e.emotional_tone := rfl

theorem decay_epC5_ci :
    (decayEpisode (3/10) 86400 epC5).current_importance = 7/10 := by
  rw [decayEpisode_ci,
    show epC5.timestamp = 0 from rfl,
    show epC5.emotional_tone = "nötr" from rfl,
    show epC5.current_importance = 1 from rfl,
    days_elapsed_one_day, emotion_modifier_neutral,
    show (1 : ℚ) - 3/10 * 1 * 1 = 7/10 by norm_num,
    max_eq_right (by norm_num)]

theorem decay_decay_epC5_ci :
    (decayEpisode (3/10) 86400
      (decayEpisode (3/10) 86400 epC5)).current_importance = 4/10 := by
  rw [decayEpisode_ci, decayEpisode_timestamp, decayEpisode_tone,
    show epC5.timestamp = 0 from rfl,
    show epC5.emotional_tone = "nötr" from rfl,
    days_elapsed_one_day, emotion_modifier_neutral, decay_epC5_ci,
    show (7/10 : ℚ) - 3/10 * 1 * 1 = 4/10 by norm_num,
    max_eq_right (by norm_num)]

/-- C5 counterexample: a neutral episode one day old with importance 1,
decayed twice at rate 3/10 with the same now, ends at 4/10, while a single
application ends at 7/10 — the second application subtracts the decrement
again. -/
theorem C5_counterexample :
    decay_memories (3/10) 86400 (decay_memories (3/10) 86400 [epC5]) ≠
      decay_memories (3/10) 86400 [epC5] := by
  intro h
  have h' := congrArg (fun l => l.map Episode.current_importance) h
  simp only [decay_memories, List.map_map, List.map_cons, List.map_nil,
    Function.comp_apply] at h'
  rw [decay_decay_epC5_ci, decay_epC5_ci] at h'
  simp only [List.cons.injEq, and_true] at h'
  norm_num at h'

/-- C5 amended: decay is not idempotent; for a nonnegative rate, applying
decay twice with the same now equals a single application at doubled rate
(each application subtracts the decrement again, floored at 0). -/
theorem C5_amended_spec (decay_rate now : ℚ) (eps : List Episode)
    (hr : 0 ≤ decay_rate) :
    decay_memories decay_rate now (decay_memories decay_rate now eps) =
      decay_memories (2 * decay_rate) now eps := by
  unfold decay_memories
  rw [List.map_map]
  apply List.map_congr_left
  intro e _
  unfold decayEpisode
  simp only [Function.comp_apply]
  have hdays : 0 ≤ days_elapsed now e.timestamp := le_max_right _ _
  have hmod : 0 ≤ emotion_modifier e.emotional_tone := by
    unfold emotion_modifier
    split <;> norm_num
  have hd : 0 ≤ decay_rate * days_elapsed now e.timestamp *
      emotion_modifier e.emotional_tone :=
    mul_nonneg (mul_nonneg hr hdays) hmod
  congr 1
  set d := decay_rate * days_elapsed now e.timestamp *
    emotion_modifier e.emotional_tone with hdef
  have h2 : 2 * decay_rate * days_elapsed now e.timestamp *
      emotion_modifier e.emotional_tone = 2 * d := by rw [hdef]; ring
  rw [h2]
  set x := e.current_importance
  rcases le_total (x - d) 0 with h | h
  · rw [max_eq_left h, max_eq_left (by linarith), max_eq_left (by linarith)]
  · rw [max_eq_right h]
    have : x - d - d = x - 2 * d := by ring
    rw [this]

/-- C5 amended witness. -/
theorem C5_amended_spec_witness :
    decay_memories (3/10) 86400 (decay_memories (3/10) 86400 [epC5]) =
      decay_memories (2 * (3/10)) 86400 [epC5] :=
  C5_amended_spec (3/10) 86400 [epC5] (by norm_num)

-- ===================================================================
-- C6 — daily_maintenance archive boundary
-- ===================================================================

/-- C6: after the decay pass, daily_maintenance forgets a (post-decay)
episode — removing it from the durable store and the similarity index — iff
its age exceeds 90 days AND its current_importance is below 0.1; neither
condition alone suffices. -/
theorem C6_maintenance_spec (decay_rate now : ℚ) (st : EpisodicStore)
    (e : Episode) (he : e ∈ decay_memories decay_rate now st.episodes) :
    (e ∈ (daily_maintenance decay_rate now st).episodes ↔
      ¬ (now - e.timestamp > 90 * 86400 ∧ e.current_importance < 1/10)) ∧
    (daily_maintenance decay_rate now st).index =
      st.index.filter (fun i =>
        ! (((decay_memories decay_rate now st.episodes).filter
          (fun e => archiveForgets now e)).map
            (fun e => e.episode_id)).contains i) := by
  constructor
  · have h0 : 0 ≤ e.current_importance := by
      rcases List.mem_map.mp he with ⟨e0, _, rfl⟩
      exact le_max_left _ _
    unfold daily_maintenance
    simp only [List.mem_filter, he, true_and, Bool.not_eq_true']
    unfold archiveForgets ARCHIVE_IMPORTANCE_THRESHOLD ARCHIVE_AGE_DAYS
    rw [decide_eq_false_iff_not]
    constructor
    · intro h hcl
      exact h ⟨h0, hcl.2, by linarith [hcl.1]⟩
    · intro h
      intro hcl
      exact h ⟨by linarith [hcl.2.2], hcl.2.1⟩
  · rfl

def epC6 : Episode :=
  { episode_id := "e-old", agent_id := "a", timestamp := 0,
    participants := [], summary := "s", emotional_tone := "nötr",
    importance := 1/10, current_importance := 1/10, tags := [] }

-- Decay at rate 0 leaves a nonnegative-importance episode unchanged.
theorem decayEpisode_zero (now : ℚ) (e : Episode)
    (h : 0 ≤ e.current_importance) : decayEpisode 0 now e = e := by
  unfold decayEpisode
  rw [zero_mul, zero_mul, sub_zero, max_eq_right h]

/-- C6 witness: with decay rate 0 and now at day 120 (in seconds), an
episode 120 days old with importance exactly 1/10 satisfies the archive
membership characterization (and is kept, since 1/10 < 1/10 fails). -/
theorem C6_maintenance_spec_witness :
    epC6 ∈ (daily_maintenance 0 ((120 : ℚ) * 86400)
        { episodes := [epC6], index := ["e-old"] }).episodes ↔
      ¬ ((120 : ℚ) * 86400 - epC6.timestamp > 90 * 86400 ∧
        epC6.current_importance < 1/10) := by
  have hmem : epC6 ∈ decay_memories 0 ((120 : ℚ) * 86400) [epC6] := by
    unfold decay_memories
    rw [List.map_cons, List.map_nil,
      decayEpisode_zero _ _ (by norm_num [epC6])]
    exact List.mem_singleton.mpr rfl
  exact (C6_maintenance_spec 0 ((120 : ℚ) * 86400)
    { episodes := [epC6], index := ["e-old"] } epC6 hmem).1

-- ===================================================================
-- C7 — compress_if_needed
-- ===================================================================

/-- C7: compress_if_needed leaves the state untouched and returns false
unless the token estimate is at least 80% of the cap, at least 4 messages
are buffered, and the summarization call succeeds; when all three hold it
drops the first floor(n/2) messages, concatenates their summary onto the
rolling summary, recomputes the token estimate from summary plus remaining
messages, and returns true.  A failed summarization call (modelled as
`none`) is absorbed: no exception surfaces. -/
theorem C7_compress_spec (wm : WorkingMemory)
    (claude_client : String → Option String) :
    ((wm.token_count * 5 < wm.max_tokens * 4 ∨ wm.messages.length < 4 ∨
        claude_client
          (compressPrompt (wm.messages.take (wm.messages.length / 2))) = none) →
      wm.compress_if_needed claude_client = (wm, false)) ∧
    (∀ s, ¬ wm.token_count * 5 < wm.max_tokens * 4 →
      ¬ wm.messages.length < 4 →
      claude_client
        (compressPrompt (wm.messages.take (wm.messages.length / 2))) = some s →
      wm.compress_if_needed claude_client =
        ({ max_tokens := wm.max_tokens
           messages := wm.messages.drop (wm.messages.length / 2)
           summary := if wm.summary ≠ "" then wm.summary ++ "\n\n" ++ s else s
           token_count :=
             estimate_tokens
               (if wm.summary ≠ "" then wm.summary ++ "\n\n" ++ s else s) +
             ((wm.messages.drop (wm.messages.length / 2)).map
               (fun m => estimate_tokens m.content)).sum }, true)) := by
  constructor
  · rintro (h | h | h)
    · unfold WorkingMemory.compress_if_needed
      rw [if_pos h]
    · unfold WorkingMemory.compress_if_needed
      by_cases h1 : wm.token_count * 5 < wm.max_tokens * 4
      · rw [if_pos h1]
      · rw [if_neg h1, if_pos h]
    · unfold WorkingMemory.compress_if_needed
      by_cases h1 : wm.token_count * 5 < wm.max_tokens * 4
      · rw [if_pos h1]
      · rw [if_neg h1]
        by_cases h2 : wm.messages.length < 4
        · rw [if_pos h2]
        · rw [if_neg h2]
          simp only [h]
  · intro s h1 h2 h3
    unfold WorkingMemory.compress_if_needed
    rw [if_neg h1, if_neg h2]
    simp only [h3]

/-- C7 witness: four one-word messages with cap 5 (estimate 4·1 = 4 tokens ≥
80% of 5) compress with a successful summarizer. -/
theorem C7_compress_spec_witness :
    WorkingMemory.compress_if_needed
        { max_tokens := 5
          messages := [⟨"user", "a"⟩, ⟨"assistant", "b"⟩,
                       ⟨"user", "c"⟩, ⟨"assistant", "d"⟩]
          summary := ""
          token_count := 4 }
        (fun _ => some "S") =
      ({ max_tokens := 5
         messages := ([⟨"user", "a"⟩, ⟨"assistant", "b"⟩, ⟨"user", "c"⟩,
             ⟨"assistant", "d"⟩] : List ChatMessage).drop
           (([⟨"user", "a"⟩, ⟨"assistant", "b"⟩, ⟨"user", "c"⟩,
             ⟨"assistant", "d"⟩] : List ChatMessage).length / 2)
         summary := if ("" : String) ≠ "" then "" ++ "\n\n" ++ "S" else "S"
         token_count :=
           estimate_tokens (if ("" : String) ≠ "" then "" ++ "\n\n" ++ "S" else "S") +
           ((([⟨"user", "a"⟩, ⟨"assistant", "b"⟩, ⟨"user", "c"⟩,
               ⟨"assistant", "d"⟩] : List ChatMessage).drop
               (([⟨"user", "a"⟩, ⟨"assistant", "b"⟩, ⟨"user", "c"⟩,
                 ⟨"assistant", "d"⟩] : List ChatMessage).length / 2)).map
             (fun m => estimate_tokens m.content)).sum }, true) :=
  (C7_compress_spec
    { max_tokens := 5
      messages := [⟨"user", "a"⟩, ⟨"assistant", "b"⟩,
                   ⟨"user", "c"⟩, ⟨"assistant", "d"⟩]
      summary := ""
      token_count := 4 }
    (fun _ => some "S")).2 "S" (by norm_num) (by norm_num) rfl

-- ===================================================================
-- C9 — evolve_belief
-- ===================================================================

theorem clampedConviction_eq (conviction delta : ℚ) :
    clampedConviction conviction delta =
      max 0 (min 1 (conviction + max (-(1/10)) (min (1/10) delta))) := rfl

theorem evolve_belief_cons (b : Belief) (rest : List Belief)
    (t : String) (δ : ℚ) :
    evolve_belief (b :: rest) t δ =
      if b.text = t then
        (if clampedConviction b.conviction δ < 1/10 then rest
         else { b with conviction := clampedConviction b.conviction δ } :: rest)
      else b :: evolve_belief rest t δ := rfl

theorem evolve_belief_cons_match (b : Belief) (rest : List Belief)
    (t : String) (δ : ℚ) (hb : b.text = t) :
    evolve_belief (b :: rest) t δ =
      if clampedConviction b.conviction δ < 1/10 then rest
      else { b with conviction := clampedConviction b.conviction δ } :: rest := by
  rw [evolve_belief_cons, if_pos hb]

theorem evolve_belief_cons_nomatch (b : Belief) (rest : List Belief)
    (t : String) (δ : ℚ) (hb : ¬ b.text = t) :
    evolve_belief (b :: rest) t δ = b :: evolve_belief rest t δ := by
  rw [evolve_belief_cons, if_neg hb]

theorem clampedConviction_clamp (conviction δ : ℚ) :
    clampedConviction conviction (max (-(1/10)) (min (1/10) δ)) =
      clampedConviction conviction δ := by
  unfold clampedConviction
  rw [clamp_clamp]

/-- C9: evolve_belief on the first belief whose text matches clamps the
delta to [−0.1, 0.1] and the new conviction to [0, 1], removes the belief
exactly when the post-clamp conviction is below 0.1 (keeps it at exactly
0.1), leaves all other beliefs untouched, and any delta behaves as its
clamped value — in particular +0.5 acts exactly as +0.1. -/
theorem C9_evolve_belief_spec (pre post : List Belief) (b : Belief)
    (belief_text : String) (delta : ℚ)
    (hpre : ∀ x ∈ pre, x.text ≠ belief_text) (hb : b.text = belief_text) :
    (evolve_belief (pre ++ b :: post) belief_text delta =
      pre ++
        (if clampedConviction b.conviction delta < 1/10 then post
         else { b with conviction := clampedConviction b.conviction delta }
           :: post)) ∧
    (0 ≤ clampedConviction b.conviction delta ∧
      clampedConviction b.conviction delta ≤ 1) ∧
    (∀ bs : List Belief, evolve_belief bs belief_text delta =
      evolve_belief bs belief_text (max (-(1/10)) (min (1/10) delta))) := by
  refine ⟨?_, ⟨le_max_left _ _, max_le (by norm_num) (min_le_left _ _)⟩, ?_⟩
  · induction pre with
    | nil =>
      simp only [List.nil_append]
      exact evolve_belief_cons_match b post belief_text delta hb
    | cons p rest ih =>
      have hp : ¬ p.text = belief_text := hpre p (List.mem_cons_self p rest)
      simp only [List.cons_append]
      rw [evolve_belief_cons_nomatch p _ belief_text delta hp]
      rw [ih (fun x hx => hpre x (List.mem_cons_of_mem p hx))]
  · intro bs
    induction bs with
    | nil => rfl
    | cons x rest ih =>
      by_cases hx : x.text = belief_text
      · rw [evolve_belief_cons_match x rest belief_text delta hx,
          evolve_belief_cons_match x rest belief_text _ hx,
          clampedConviction_clamp]
      · rw [evolve_belief_cons_nomatch x rest belief_text delta hx,
          evolve_belief_cons_nomatch x rest belief_text _ hx, ih]

def beliefC9 : Belief := { text := "a", conviction := 1/5 }

/-- C9 witness: a belief of conviction 1/5 evolved by +1/2 gains exactly
+1/10, reaching 3/10 (kept, since 3/10 ≥ 1/10). -/
theorem C9_evolve_belief_spec_witness :
    evolve_belief [beliefC9] "a" (1/2) =
      [{ text := "a", conviction := (3:ℚ)/10 }] := by
  have h := (C9_evolve_belief_spec [] [] beliefC9 "a" (1/2)
    (by intro x hx; exact absurd hx (List.not_mem_nil x)) rfl).1
  rw [List.nil_append, List.nil_append] at h
  rw [h]
  have hc : clampedConviction beliefC9.conviction (1/2) = 3/10 := by
    rw [clampedConviction_eq,
      min_eq_left (by norm_num : (1:ℚ)/10 ≤ 1/2),
      max_eq_right (by norm_num : -(1/10) ≤ (1:ℚ)/10),
      show beliefC9.conviction = (1:ℚ)/5 from rfl,
      show (1:ℚ)/5 + 1/10 = 3/10 by norm_num,
      min_eq_right (by norm_num : (3:ℚ)/10 ≤ 1),
      max_eq_right (by norm_num : (0:ℚ) ≤ 3/10)]
  rw [hc, if_neg (by norm_num)]
  rfl

-- ===================================================================
-- C8 — MessageBus.send / broadcast
-- ===================================================================

theorem send_log (bus : MessageBus) (m : Message) :
    (bus.send m).log = bus.log ++ [m] := by
  unfold MessageBus.send MessageBus.deliver MessageBus.persist_message
  cases h : alistLookup bus.queues m.to_id <;> simp [h]

theorem sendFold_log {β : Type} (f : β → Message) :
    ∀ (l : List β) (bus : MessageBus),
      (l.foldl (fun b p => b.send (f p)) bus).log = bus.log ++ l.map f
  | [], bus => by simp
  | x :: rest, bus => by
    simp only [List.foldl_cons, List.map_cons]
    rw [sendFold_log f rest (bus.send (f x)), send_log, List.append_assoc,
      List.singleton_append]

/-- C8: send persists the message to the durable log before and regardless
of delivery (send factors as persist-then-deliver, and the log always gains
the message even with no inbox); it enqueues into the recipient's mailbox
only when one exists; a later history query for the recipient (with a
sufficient limit) returns the message; and broadcast constructs one message
per entity holding a live inbox except the sender, never targeting the
sender. -/
theorem C8_send_broadcast_spec (bus : MessageBus) (m : Message)
    (from_id content msg_type : String) (freshId : Nat → String) (now : ℤ)
    (limit : Nat) :
    (bus.send m = (bus.persist_message m).deliver m ∧
      (bus.send m).log = bus.log ++ [m]) ∧
    (alistLookup bus.queues m.to_id = none →
      (bus.send m).queues = bus.queues) ∧
    (∀ q, alistLookup bus.queues m.to_id = some q →
      (bus.send m).queues = alistSet bus.queues m.to_id (q ++ [m])) ∧
    (((bus.send m).log.filter
        (fun x => x.from_id = m.to_id ∨ x.to_id = m.to_id)).length ≤ limit →
      m ∈ (bus.send m).get_history m.to_id limit) ∧
    ((bus.broadcast from_id content msg_type freshId now).log =
      bus.log ++ (broadcastRecipients bus from_id).enum.map
        (fun p => broadcastMessage from_id content msg_type freshId now p.1 p.2)) ∧
    (((broadcastRecipients bus from_id).enum.map
        (fun p => broadcastMessage from_id content msg_type freshId now p.1 p.2)).map
      Message.to_id = broadcastRecipients bus from_id) ∧
    from_id ∉ broadcastRecipients bus from_id := by
  refine ⟨⟨rfl, send_log bus m⟩, ?_, ?_, ?_, ?_, ?_, ?_⟩
  · intro h
    unfold MessageBus.send MessageBus.deliver MessageBus.persist_message
    simp [h]
  · intro q h
    unfold MessageBus.send MessageBus.deliver MessageBus.persist_message
    simp [h]
  · intro hlen
    unfold MessageBus.get_history
    have hmem : m ∈ (bus.send m).log.filter
        (fun x => decide (x.from_id = m.to_id ∨ x.to_id = m.to_id)) := by
      rw [List.mem_filter]
      refine ⟨?_, by simp⟩
      rw [send_log]
      exact List.mem_append_right _ (List.mem_singleton.mpr rfl)
    rw [List.take_of_length_le]
    · rw [List.mem_insertionSort]
      exact hmem
    · rw [List.length_insertionSort]
      exact hlen
  · unfold MessageBus.broadcast
    exact sendFold_log _ _ bus
  · rw [List.map_map]
    have hcomp : (Message.to_id ∘ fun p : Nat × String =>
        broadcastMessage from_id content msg_type freshId now p.1 p.2) =
        Prod.snd := by
      funext p
      rfl
    rw [hcomp, List.enum_map_snd]
  · simp [broadcastRecipients]

def msgC8 : Message :=
  { message_id := "m1", from_id := "alice", to_id := "bob",
    message_type := "chat", content := "hi", timestamp := 5 }

/-- C8 witness: sending to an entity with no inbox still persists, and the
message is returned by a history query. -/
theorem C8_send_broadcast_spec_witness :
    (({ log := [], queues := [] } : MessageBus).send msgC8).queues = [] ∧
    msgC8 ∈ (({ log := [], queues := [] } : MessageBus).send msgC8).get_history
      msgC8.to_id 50 := by
  refine ⟨?_, ?_⟩
  · exact (C8_send_broadcast_spec { log := [], queues := [] } msgC8
      "x" "c" "t" (fun _ => "i") 0 50).2.1 rfl
  · refine (C8_send_broadcast_spec { log := [], queues := [] } msgC8
      "x" "c" "t" (fun _ => "i") 0 50).2.2.2.1 ?_
    rw [send_log]
    simp

-- ===================================================================
-- C10 — MessageBus.receive with timeout=None
-- ===================================================================

/-- C10: receive with no timeout is the get_nowait path — a total function
that never waits and never raises: it returns none when the mailbox is
missing or empty, and pops and returns the head message when the mailbox is
non-empty; only the explicit-timeout path of the code can wait. -/
theorem C10_receive_spec (bus : MessageBus) (entity_id : String) :
    (alistLookup bus.queues entity_id = none →
      bus.receive_nowait entity_id = (none, bus)) ∧
    (alistLookup bus.queues entity_id = some [] →
      bus.receive_nowait entity_id = (none, bus)) ∧
    (∀ m rest, alistLookup bus.queues entity_id = some (m :: rest) →
      bus.receive_nowait entity_id =
        (some m, { bus with queues := alistSet bus.queues entity_id rest })) := by
  refine ⟨?_, ?_, ?_⟩
  · intro h
    unfold MessageBus.receive_nowait
    simp [h]
  · intro h
    unfold MessageBus.receive_nowait
    simp [h]
  · intro m rest h
    unfold MessageBus.receive_nowait
    simp [h]

/-- C10 witness: a mailbox holding one message pops it; a missing mailbox
returns none. -/
theorem C10_receive_spec_witness :
    ({ log := [], queues := [("bob", [msgC8])] } : MessageBus).receive_nowait
      "bob" =
      (some msgC8,
        { log := [], queues := alistSet [("bob", [msgC8])] "bob" [] }) ∧
    ({ log := [], queues := [] } : MessageBus).receive_nowait "carol" =
      (none, { log := [], queues := [] }) := by
  constructor
  · exact (C10_receive_spec { log := [], queues := [("bob", [msgC8])] }
      "bob").2.2 msgC8 [] rfl
  · exact (C10_receive_spec { log := [], queues := [] } "carol").1 rfl

-- ===================================================================
-- C1 — run_conversation completion reasons
-- ===================================================================

theorem convLoop_no_stop (i : Nat → Bool) (r : Nat → String) :
    ∀ (rem turn : Nat),
      (∀ t, turn ≤ t → t < turn + rem →
        i t = false ∧ containsEndSignal (r t) = false) →
      convLoop i r turn rem = (turn + rem, false)
  | 0, turn, _ => by simp [convLoop]
  | rem + 1, turn, h => by
    have h0 := h turn (le_refl _) (by omega)
    rw [convLoop, if_neg (by simp [h0.1]), if_neg (by simp [h0.2]),
      convLoop_no_stop i r rem (turn + 1)
        (fun t h1 h2 => h t (by omega) (by omega))]
    congr 1
    omega

theorem convLoop_interrupt_at (i : Nat → Bool) (r : Nat → String) :
    ∀ (rem turn t0 : Nat), turn ≤ t0 → t0 < turn + rem → i t0 = true →
      (∀ t, turn ≤ t → t < t0 →
        i t = false ∧ containsEndSignal (r t) = false) →
      convLoop i r turn rem = (t0, true)
  | 0, turn, t0, hle, hlt, _, _ => absurd hlt (by omega)
  | rem + 1, turn, t0, hle, hlt, hi, h => by
    by_cases ht : turn = t0
    · subst ht
      rw [convLoop, if_pos hi]
    · have hlt0 : turn < t0 := lt_of_le_of_ne hle ht
      have h0 := h turn (le_refl _) hlt0
      rw [convLoop, if_neg (by simp [h0.1]), if_neg (by simp [h0.2])]
      exact convLoop_interrupt_at i r rem (turn + 1) t0 (by omega) (by omega)
        hi (fun t h1 h2 => h t (by omega) h2)

theorem convLoop_marker_at (i : Nat → Bool) (r : Nat → String) :
    ∀ (rem turn t0 : Nat), turn ≤ t0 → t0 < turn + rem → i t0 = false →
      containsEndSignal (r t0) = true →
      (∀ t, turn ≤ t → t < t0 →
        i t = false ∧ containsEndSignal (r t) = false) →
      convLoop i r turn rem = (t0 + 1, false)
  | 0, turn, t0, hle, hlt, _, _, _ => absurd hlt (by omega)
  | rem + 1, turn, t0, hle, hlt, hi, hm, h => by
    by_cases ht : turn = t0
    · subst ht
      rw [convLoop, if_neg (by simp [hi]), if_pos hm]
    · have hlt0 : turn < t0 := lt_of_le_of_ne hle ht
      have h0 := h turn (le_refl _) hlt0
      rw [convLoop, if_neg (by simp [h0.1]), if_neg (by simp [h0.2])]
      exact convLoop_marker_at i r rem (turn + 1) t0 (by omega) (by omega)
        hi hm (fun t h1 h2 => h t (by omega) h2)

/-- C1 amended: exactly one completion reason is recorded, classified as:
interrupted when an interrupt flag is observed at the check before a turn
(the loop stops before that turn); natural when a response contains the end
marker on a turn that is not the final one; and limit when all maxTurns
turns complete without an interrupt stop — including when the marker
appears in the final turn's response.  In particular, with maxTurns = 6 and
no marker the loop runs exactly 6 turns with reason limit, and a marker in
the 2nd response stops it after 2 turns with reason natural. -/
theorem C1_amended_spec (interruptSet : Nat → Bool)
    (responses : Nat → String) (max_turns : Nat) :
    ((∀ t, t < max_turns → interruptSet t = false ∧
        containsEndSignal (responses t) = false) →
      run_conversation_outcome interruptSet responses max_turns =
        (max_turns, EndReason.limit)) ∧
    (∀ t0, t0 < max_turns → interruptSet t0 = true →
      (∀ t, t < t0 → interruptSet t = false ∧
        containsEndSignal (responses t) = false) →
      run_conversation_outcome interruptSet responses max_turns =
        (t0, EndReason.interrupted)) ∧
    (∀ t0, t0 < max_turns → interruptSet t0 = false →
      containsEndSignal (responses t0) = true →
      (∀ t, t < t0 → interruptSet t = false ∧
        containsEndSignal (responses t) = false) →
      run_conversation_outcome interruptSet responses max_turns =
        (t0 + 1,
          if t0 + 1 < max_turns then EndReason.natural else EndReason.limit)) := by
  refine ⟨?_, ?_, ?_⟩
  · intro h
    unfold run_conversation_outcome
    rw [convLoop_no_stop interruptSet responses max_turns 0
      (fun t h1 h2 => h t (by omega))]
    unfold end_reason
    simp
  · intro t0 hlt hi h
    unfold run_conversation_outcome
    rw [convLoop_interrupt_at interruptSet responses max_turns 0 t0
      (Nat.zero_le _) (by omega) hi (fun t h1 h2 => h t h2)]
    unfold end_reason
    simp
  · intro t0 hlt hi hm h
    unfold run_conversation_outcome
    rw [convLoop_marker_at interruptSet responses max_turns 0 t0
      (Nat.zero_le _) (by omega) hi hm (fun t h1 h2 => h t h2)]
    unfold end_reason
    simp

def responsesC1 : Nat → String :=
  fun t => if t = 5 then "Tamam, hoşça kal! [VEDA]" else "Devam edelim."

/-- C1 counterexample: with maxTurns = 6, no interrupts, and the reserved
end marker appearing (only) in the 6th turn's response, the loop runs 6
turns and the code records reason limit, not natural, even though a
response contained the marker. -/
theorem C1_counterexample :
    run_conversation_outcome (fun _ => false) responsesC1 6 =
      (6, EndReason.limit) ∧
    containsEndSignal (responsesC1 5) = true ∧
    EndReason.limit ≠ EndReason.natural := by
  refine ⟨rfl, rfl, by decide⟩

def responsesC1nat : Nat → String :=
  fun t => if t = 1 then "Bence de öyle, görüşürüz! [VEDA]" else "Merhaba!"

/-- C1 amended witness: with maxTurns = 6 and no marker the loop runs 6
turns with reason limit; with the marker in the 2nd response it stops after
2 turns with reason natural. -/
theorem C1_amended_spec_witness :
    run_conversation_outcome (fun _ => false) (fun _ => "Merhaba!") 6 =
      (6, EndReason.limit) ∧
    run_conversation_outcome (fun _ => false) responsesC1nat 6 =
      (1 + 1, if 1 + 1 < 6 then EndReason.natural else EndReason.limit) := by
  constructor
  · exact (C1_amended_spec (fun _ => false) (fun _ => "Merhaba!") 6).1
      (fun t _ => ⟨rfl, rfl⟩)
  · exact (C1_amended_spec (fun _ => false) responsesC1nat 6).2.2 1
      (by omega) rfl (by decide)
      (fun t ht => ⟨rfl, by interval_cases t <;> decide⟩)

-- ===================================================================
-- C2 — handle_human_message interrupt + immediate delivery
-- ===================================================================

/-- C2: when the target agent holds a live interrupt flag (it is inside a
run_conversation loop, whose setup also recorded its partner in the
registry and allocated the partner's flag), handle_human_message sets both
the target's and the partner's interrupt flags and still returns the chat
response in the same invocation — the human message is delivered
immediately, never queued behind the agent-to-agent conversation. -/
theorem C2_interrupt_delivery (st : OrchestratorState)
    (human_id target_agent_id message chatResponse partner_id : String)
    (b bp : Bool) (e : WorldEntity)
    (hagent : target_agent_id ∈ st.agents)
    (hengine : target_agent_id ∈ st.engines)
    (hflag : alistLookup st.interrupt_events target_agent_id = some b)
    (hreg : alistLookup st.registry target_agent_id = some e)
    (hpartner : e.current_conversation_with = some partner_id)
    (hpflag : alistLookup st.interrupt_events partner_id = some bp) :
    handle_human_message st human_id target_agent_id message chatResponse =
      Except.ok (interrupt_conversation st target_agent_id, chatResponse) ∧
    alistLookup (interrupt_conversation st target_agent_id).interrupt_events
      target_agent_id = some true ∧
    alistLookup (interrupt_conversation st target_agent_id).interrupt_events
      partner_id = some true := by
  have h1 : setFlag st.interrupt_events target_agent_id =
      alistSet st.interrupt_events target_agent_id true := by
    unfold setFlag
    rw [hflag]
    simp
  have hic : interrupt_conversation st target_agent_id =
      { st with
        interrupt_events :=
          setFlag (alistSet st.interrupt_events target_agent_id true) partner_id } := by
    unfold interrupt_conversation
    simp only [h1, hreg, hpartner]
  have hl1 : alistLookup
      (alistSet st.interrupt_events target_agent_id true) target_agent_id =
      some true :=
    alistLookup_alistSet_self _ _ _ _ hflag
  have hflags : alistLookup
        (setFlag (alistSet st.interrupt_events target_agent_id true)
          partner_id) target_agent_id = some true ∧
      alistLookup
        (setFlag (alistSet st.interrupt_events target_agent_id true)
          partner_id) partner_id = some true := by
    by_cases hpt : partner_id = target_agent_id
    · subst hpt
      unfold setFlag
      rw [hl1]
      simp only [Option.isSome_some, if_pos trivial, if_true]
      exact ⟨alistLookup_alistSet_self _ _ _ _ hl1,
        alistLookup_alistSet_self _ _ _ _ hl1⟩
    · have hl2 : alistLookup
          (alistSet st.interrupt_events target_agent_id true) partner_id =
          some bp := by
        rw [alistLookup_alistSet_ne _ _ _ _
          (fun hh => hpt hh.symm)]
        exact hpflag
      unfold setFlag
      rw [hl2]
      simp only [Option.isSome_some, if_true]
      constructor
      · rw [alistLookup_alistSet_ne _ _ _ _ hpt]
        exact hl1
      · exact alistLookup_alistSet_self _ _ _ _ hl2
  refine ⟨?_, ?_, ?_⟩
  · unfold handle_human_message
    rw [if_pos hagent, if_pos hengine, if_pos (by rw [hflag]; simp)]
  · rw [hic]
    exact hflags.1
  · rw [hic]
    exact hflags.2

def entC2 : WorldEntity :=
  { entity_id := "A", entity_type := "agent", name := "Ada",
    status := "in_conversation", current_conversation_with := some "B",
    personality_summary := "", expertise_summary := "", avatar_emoji := "",
    last_active := 0 }

def stC2 : OrchestratorState :=
  { registry := [("A", entC2)]
    interrupt_events := [("A", false), ("B", false)]
    agents := ["A", "B"]
    engines := ["A", "B"] }

/-- C2 witness: a concrete state with agent A in conversation with B; a
human message to A interrupts both and is answered immediately. -/
theorem C2_interrupt_delivery_witness :
    handle_human_message stC2 "human" "A" "hello" "reply" =
      Except.ok (interrupt_conversation stC2 "A", "reply") ∧
    alistLookup (interrupt_conversation stC2 "A").interrupt_events "A" =
      some true ∧
    alistLookup (interrupt_conversation stC2 "A").interrupt_events "B" =
      some true :=
  C2_interrupt_delivery stC2 "human" "A" "hello" "reply" "B" false false
    entC2 (by decide) (by decide) rfl rfl rfl rfl

end LivingAgents
